import Mathlib

/-!
Verification of the CurtainTime rules-engine specification against the
repository's sources (`workflow-doc.md`, `scripts/before-after-unpaid-meal.md`,
`scripts/create-unworked-entry.md`, and the "Minimum Calls - BH" script).

The FileMaker scripts are shallowly embedded: each repeating-variable array
(`$$bill[n]` / `$$pay[n]` / `$$unwork[n]`) becomes a Lean list, each script a
function on an explicit state record, loops become fuel-indexed structural
recursion (the runner supplies fuel that provably bounds the iteration count),
and FileMaker numbers/times/timestamps become rationals (times and timestamps
in seconds, dates in days).  Ghost fields (`examined`, `created`) instrument
the state to record which array slots a loop visited and which padding entries
a run created; they are write-only and never influence control flow.
-/

/-- One Time Card Line record, restricted to the fields the embedded scripts
read or write.  `timeIn`/`timeOut` are wall-clock seconds, `timeInTs`/`timeOutTs`
absolute timestamps in seconds, `date` a day number, `hrsUnworked` a FileMaker
time value in seconds. -/
structure TCL where
  date : ℤ := 0
  timeIn : ℚ := 0
  timeOut : ℚ := 0
  timeInTs : ℚ := 0
  timeOutTs : ℚ := 0
  hrsUnworked : ℚ := 0
  isBill : Bool := false
  isPay : Bool := false
  isUnpaidMeal : Bool := false
  isPaidMeal : Bool := false
  isFlat : Bool := false
  isMinimumCall : Bool := false
  ignoreMinimumCall : Bool := false
  isAfterMidnight : Bool := false
  hasGraceNote : Bool := false
  cjtMinCall : Option ℚ := none
  deriving DecidableEq, Inhabited

/-- FileMaker `GetAsTime` applied to a timestamp: the time-of-day part, i.e.
the timestamp minus a whole number of days. -/
def tsTimePart (ts : ℚ) : ℚ := ts - 86400 * (⌊ts / 86400⌋ : ℤ)

/-- The mode-global variables a rule sub-script reads and mutates: the
`$$bill[n]`/`$$pay[n]` array with its count global, and the `$$unwork[n]`
array with its count global. -/
structure ModeVars where
  arr : List TCL := []
  count : ℕ := 0
  unwork : List TCL := []
  unworkCount : ℕ := 0
  deriving DecidableEq, Inhabited

/-! ## Column Router ("Write to Disk - BH")

The flag-to-column cascades from `workflow-doc.md` lines 956-974 (bill/pay
record loop) and lines 1079-1097 (unworked record loop), and the set-or-clear
column loop (lines 977-987 resp. 1100-1110). -/

/-- The boolean flags of a persisted record that the column cascades read.
Field spelling follows the source (`ignoreMealPenatly` is spelled that way in
the FileMaker schema). -/
structure ColFlags where
  isUnpaidMeal : Bool := false
  isDriveTime : Bool := false
  isOTDailyL1 : Bool := false
  isOTDailyL2 : Bool := false
  isOTWeekly : Bool := false
  isHoliday : Bool := false
  isConsecutiveDay6th : Bool := false
  isConsecutiveDay7th : Bool := false
  isConsecutiveDay8th : Bool := false
  isMP1 : Bool := false
  isMP2 : Bool := false
  isNightRate : Bool := false
  isDayOfWeek : Bool := false
  ignoreOvertime : Bool := false
  ignoreMealPenatly : Bool := false
  ignoreHoliday : Bool := false
  ignoreNightRate : Bool := false
  deriving DecidableEq

/-- Bill/pay cascade (`workflow-doc.md` lines 956-974): first matching
condition selects the target hours column; an unpaid meal selects none. -/
def billPayTarget (f : ColFlags) : Option (Fin 6) :=
  if f.isUnpaidMeal then none
  else if f.isDriveTime then some 5
  else if f.isOTDailyL2
      || (f.isHoliday && (f.isOTDailyL1 || f.isOTWeekly || f.isConsecutiveDay6th
            || f.isConsecutiveDay7th || f.isConsecutiveDay8th))
      || (f.isOTDailyL1 && f.isConsecutiveDay7th) then some 2
  else if (f.isOTDailyL1 || f.isOTWeekly || f.isConsecutiveDay6th
            || f.isConsecutiveDay7th || f.isConsecutiveDay8th) && !f.ignoreOvertime then some 1
  else if (f.isMP1 || f.isMP2) && !f.ignoreMealPenatly then some 4
  else if f.isHoliday && !f.ignoreHoliday then some 1
  else if f.isNightRate && !f.ignoreNightRate then some 3
  else if f.isDayOfWeek then some 1
  else some 0

/-- Unworked cascade (`workflow-doc.md` lines 1079-1097): differs from the
bill/pay cascade in the double-time test (`Sum (...) > 1`) and in the
overtime condition (no consecutive-day flags). -/
def unworkTarget (f : ColFlags) : Option (Fin 6) :=
  if f.isUnpaidMeal then none
  else if f.isDriveTime then some 5
  else if f.isOTDailyL2
      || (f.isOTDailyL1.toNat + f.isOTWeekly.toNat + f.isHoliday.toNat
            + f.isConsecutiveDay6th.toNat + f.isConsecutiveDay7th.toNat
            + f.isConsecutiveDay8th.toNat) > 1 then some 2
  else if (f.isOTDailyL1 || f.isOTWeekly) && !f.ignoreOvertime then some 1
  else if (f.isMP1 || f.isMP2) && !f.ignoreMealPenatly then some 4
  else if f.isHoliday && !f.ignoreHoliday then some 1
  else if f.isNightRate && !f.ignoreNightRate then some 3
  else if f.isDayOfWeek then some 1
  else some 0

/-- The value written to a matching hours column: the segment's
`timeDuration_c / 3600`, written as empty when that quotient is zero
(`Let ( x = timeDuration_c / 3600; If ( x = 0; ""; x ) )`). -/
def hourColumnValue (durSeconds : ℚ) : Option ℚ :=
  if durSeconds / 3600 = 0 then none else some (durSeconds / 3600)

/-- The set-or-clear loop over the six column fields: the target field (if
any) receives `hourColumnValue`, every other field is cleared to empty. -/
def routeColumns (target : Option (Fin 6)) (durSeconds : ℚ) : Fin 6 → Option ℚ :=
  fun c => if target = some c then hourColumnValue durSeconds else none

/-- The persisted hour columns of one record, for the bill/pay loop
(`unworkedLoop = false`) or the unworked loop (`unworkedLoop = true`). -/
def persistedColumns (unworkedLoop : Bool) (f : ColFlags) (durSeconds : ℚ) :
    Fin 6 → Option ℚ :=
  routeColumns (if unworkedLoop then unworkTarget f else billPayTarget f) durSeconds

/-! ## Validator ("Validate Time Card")

`workflow-doc.md` lines 257-281: a chronologically-ordered list of
`(time_in, time_out)` pairs of Clock lines is walked comparing each record's
`time_in` against the previous record's `time_out`; empty input returns the
reserved code `-1`; an overlap exits with a positive error code and a message
naming the contact. -/

/-- Wraparound detection: `time_in > time_out` and `time_out ≠ 00:00:00`. -/
def wrapSignature (s : TCL) : Bool := decide (s.timeOut < s.timeIn) && decide (s.timeOut ≠ 0)

/-- The modified original entry: `time_out` becomes midnight, its timestamp
midnight on `date + 1`, `isAfterMidnight` cleared. -/
def splitFirst (s : TCL) : TCL :=
  { s with timeOut := 0
           timeOutTs := ((s.date : ℚ) + 1) * 86400
           isAfterMidnight := false }

/-- The inserted copy: `time_in` becomes midnight (timestamp midnight on
`date + 1`), `time_out_ts_c` becomes `date + 1` plus the original `time_out`,
`isAfterMidnight` set, grace-period note cleared. -/
def splitSecond (s : TCL) : TCL :=
  { s with timeIn := 0
           timeInTs := ((s.date : ℚ) + 1) * 86400
           timeOutTs := ((s.date : ℚ) + 1) * 86400 + s.timeOut
           isAfterMidnight := true
           hasGraceNote := false }

/-- Midnight Split over the mode array: only the first detected span is
split, after which the loop exits. -/
def midnightSplit : List TCL → List TCL
  | [] => []
  | s :: rest =>
    if wrapSignature s then splitFirst s :: splitSecond s :: rest
    else s :: midnightSplit rest

/-! ## "Create Worked Entry" / "Duplicate Rule Variable" insertion

The script text of "Create Worked Entry" is not in the repository sources;
only its call sites and the workflow documentation describe it. -/

/-- Modelled from the spec: "Create Worked Entry" is missing from the sources;
per spec 4.6/4.7 and `workflow-doc.md` (lines 380, 396-398, 644) it calls
"Duplicate Rule Variable", which inserts a copy of the entry at 1-based
position `iSource` immediately after it (1-based position `iSource + 1`) and
increments the mode count global, then overwrites the copy's times (the
out-timestamp adds a day only on a midnight wrap) and marks it a Minimum Call
record. -/
def mkWorkedSeg (source : TCL) (tin tout : ℚ) : TCL :=
  { source with
      timeIn := tin
      timeOut := tout
      timeInTs := (source.date : ℚ) * 86400 + tin
      timeOutTs := (source.date : ℚ) * 86400 + (if tout < tin then tout + 86400 else tout)
      isMinimumCall := true
      isUnpaidMeal := false
      isPaidMeal := false
      hasGraceNote := false }

/-- Modelled from the spec: the record that "Duplicate Rule Variable"
duplicates, 1-based position `iSource` (an out-of-range position yields an
empty source record). -/
def dupSource (arr : List TCL) (iSource : ℕ) : TCL :=
  if iSource = 0 then default else arr.getD (iSource - 1) default

/-- Modelled from the spec: insertion of the new worked entry at 1-based
position `iSource + 1` (0-based index `iSource`), with the mode count global
incremented. -/
def insertWorkedEntry (g : ModeVars) (iSource : ℕ) (tin tout : ℚ) : ModeVars :=
  { g with arr := g.arr.insertIdx iSource (mkWorkedSeg (dupSource g.arr iSource) tin tout)
           count := g.count + 1 }

/-- Construction of an unworked record by "Create Unworked Entry"
(`scripts/create-unworked-entry.md`), restricted to the fields carried by
`TCL` and to call sites that pass `time_in`, `time_out` and `hrsUnworked`
(every modelled call site does): copy the source record, recompute
`isAfterMidnight` from the source timestamps, rebuild both timestamps from
the source date and the provided times (out time earlier than in time rolls
to the next day unless already after midnight), set the time and
`hrsUnworked` fields, mark it a Minimum Call record, and clear the meal
flags and grace note. -/
def mkUnworkedEntry (source : TCL) (tin tout hrsUw : ℚ) : TCL :=
  let isAM : Bool := decide ((source.date : ℚ) < (⌊source.timeOutTs / 86400⌋ : ℤ))
  let tsDate : ℚ := (source.date : ℚ) + (if isAM then 1 else 0)
  { source with
      timeIn := tin
      timeOut := tout
      timeInTs := tsDate * 86400 + tin
      timeOutTs := (if !isAM && tout < tin then tsDate + 1 else tsDate) * 86400 + tout
      isAfterMidnight := isAM
      hrsUnworked := hrsUw
      isMinimumCall := true
      isUnpaidMeal := false
      isPaidMeal := false
      isFlat := false
      hasGraceNote := false }

/-- Appending the unworked record to the `$$unwork[n]` array; the script
increments `$$unwork_count`. -/
def appendUnworkedEntry (g : ModeVars) (source : TCL) (tin tout hrsUw : ℚ) : ModeVars :=
  { g with unwork := g.unwork ++ [mkUnworkedEntry source tin tout hrsUw]
           unworkCount := g.unworkCount + 1 }

/-! ## Minimum Call Enforcer ("Minimum Calls - BH")

Embedding of the full script: rule/scope guard, flat-rate early exit, the
main record loop with gap detection and entry creation, the accumulate-only
`$$unwork[]` loop, and the post-loop minimum check. -/

/-- The preheated parameters of "Minimum Calls - BH": rule values `hour1` and
`hour2`, the contract booleans, and the contract's `hrs_meal_break_max`
(converted by `Time ( x; 0; 0 )`, so an empty field gives zero seconds).
`ruleOk` stands for the two early exits on a missing rule record or a
non-matching scope; `isBillMode` is `$$this_mode = "bill"`. -/
structure MCParams where
  isBillMode : Bool := true
  ruleOk : Bool := true
  hrsMinimumFirst : ℚ := 0
  hrsMinimumNext : ℚ := 0
  minimumsIncludedInNT : Bool := false
  minimumsIncludedInOT : Bool := false
  minimumsAreWorkedTime : Bool := true
  hrsMealBreakMax : Option ℚ := none
  deriving DecidableEq

/-- `Time ( hrs_meal_break_max; 0; 0 )` in seconds; an empty field gives 0. -/
def mcMax (p : MCParams) : ℚ := 3600 * (p.hrsMealBreakMax.getD 0)

/-- The local variables of the "Minimum Calls - BH" loops, together with the
mode globals `g`. -/
structure MCState where
  g : ModeVars
  i : ℕ := 0
  recordCount : ℕ := 0
  callCount : ℕ := 0
  runningWorked : ℚ := 0
  runningUnworked : ℚ := 0
  lastOutTs : Option ℚ := none
  lastMinCall : Option ℚ := none
  startOfCallRep : ℕ := 0
  currentMin : ℚ := 0
  lastRecord : Option TCL := none
  thisTimeOut : ℚ := 0
  thisIgnoreMC : Bool := false
  deriving DecidableEq

/-- Worked-entry creation inside "Minimum Calls - BH": calls the modelled
"Create Worked Entry" with the given 1-based `iSource`, the previous out time
as `time_in`, and the previous out time plus the missing seconds as
`time_out`. -/
def mcCreateWorked (st : MCState) (iSource : ℕ) : MCState :=
  let missing := st.currentMin - st.runningWorked
  let lastOut := tsTimePart (st.lastOutTs.getD 0)
  { st with g := insertWorkedEntry st.g iSource lastOut (lastOut + missing) }

/-- Unworked-entry creation inside "Minimum Calls - BH": source is
`$last_record`, `hrsUnworked` is the missing seconds, `time_in`/`time_out`
span the missing seconds from the previous out time. -/
def mcCreateUnworked (st : MCState) : MCState :=
  let missing := st.currentMin - st.runningWorked
  let lastOut := tsTimePart (st.lastOutTs.getD 0)
  { st with g := appendUnworkedEntry st.g (st.lastRecord.getD default) lastOut (lastOut + missing) missing }

/-- One iteration of the main record loop of "Minimum Calls - BH"
(script lines 66-181), processing the record at 1-based position `st.i`. -/
def mcStep (p : MCParams) (st : MCState) : MCState :=
  match st.g.arr.get? (st.i - 1) with
  | none => st
  | some seg =>
    let dur := seg.timeOutTs - seg.timeInTs
    -- $time_gap: empty when there is no previous out or no difference
    let timeGap : ℚ :=
      match st.lastOutTs with
      | none => 0
      | some lo => if seg.timeInTs - lo = 0 then 0 else seg.timeInTs - lo
    let cjt := seg.cjtMinCall
    -- $current_minimum_call: first call takes the max of all minimums seen
    let st := { st with
      currentMin :=
        if st.callCount < 1 then
          3600 * ((cjt.toList ++ st.lastMinCall.toList).foldl max p.hrsMinimumFirst)
        else 3600 * p.hrsMinimumNext
      thisTimeOut := seg.timeOut
      thisIgnoreMC := seg.ignoreMinimumCall }
    let st := if st.lastOutTs = none then { st with startOfCallRep := st.i } else st
    -- gap branch: too much time transpired before this record
    let gapTriggered := timeGap + st.runningUnworked > mcMax p
    let timeGap := if gapTriggered ∧ 0 < st.runningWorked ∧ st.runningWorked < st.currentMin
      then 0 else timeGap
    let st :=
      if gapTriggered then
        let st :=
          if 0 < st.runningWorked ∧ st.runningWorked < st.currentMin then
            let st :=
              if p.minimumsAreWorkedTime then
                let st := mcCreateWorked st st.startOfCallRep
                { st with i := st.i + 1, recordCount := st.recordCount + 1 }
              else mcCreateUnworked st
            { st with startOfCallRep := st.i, lastMinCall := none }
          else st
        { st with runningWorked := 0, runningUnworked := 0,
                  callCount := st.callCount + 1, currentMin := 3600 * p.hrsMinimumNext }
      else st
    -- classify the current record
    let st :=
      if seg.isMinimumCall then
        { st with runningWorked := st.runningWorked + dur, runningUnworked := 0 }
      else if seg.ignoreMinimumCall then st
      else if seg.isUnpaidMeal then
        if dur + timeGap + st.runningUnworked > mcMax p then
          let st :=
            if 0 < st.runningWorked ∧ st.runningWorked < st.currentMin then
              let st :=
                if p.minimumsAreWorkedTime then
                  let st := mcCreateWorked st st.startOfCallRep
                  { st with recordCount := st.recordCount + 1 }
                else mcCreateUnworked st
              { st with i := st.i + 1, callCount := st.callCount + 1 }
            else st
          { st with runningWorked := 0, runningUnworked := 0, lastMinCall := none }
        else { st with runningUnworked := st.runningUnworked + dur }
      else
        { st with runningWorked := st.runningWorked + dur, runningUnworked := 0 }
    -- remember the last OUT timestamp, job-title minimum and record
    { st with
        lastOutTs :=
          if st.runningWorked = 0 ∧ st.runningUnworked = 0 ∧ st.lastMinCall = none
          then none else some seg.timeOutTs
        lastMinCall := cjt
        lastRecord := some seg }

/-- The main record loop of "Minimum Calls - BH": the 1-based cursor is
incremented before the exit test; the fuel argument bounds the number of
iterations and is supplied by `mcRun` from the initial loop measure. -/
def mcLoopF (p : MCParams) : ℕ → MCState → MCState
  | 0, st => st
  | n + 1, st =>
    let st1 := { st with i := st.i + 1 }
    if st1.recordCount < st1.i then st1
    else mcLoopF p n (mcStep p st1)

/-- The accumulate-only `$$unwork[]` loop (script lines 192-215): for each
mode-matching entry, remember its ignore flag and, unless ignored or an
unpaid meal, add its `hrsUnworked` to the worked running total. -/
def mcUnworkFold (p : MCParams) (st : MCState) : MCState :=
  st.g.unwork.foldl
    (fun s u =>
      if (p.isBillMode && u.isBill) || (!p.isBillMode && u.isPay) then
        let s := { s with thisIgnoreMC := u.ignoreMinimumCall }
        if !u.ignoreMinimumCall && !u.isUnpaidMeal then
          { s with runningWorked := s.runningWorked + u.hrsUnworked }
        else s
      else s)
    st

/-- The post-loop minimum check (script lines 217-230): if some but not
enough time was credited and the last examined record is not ignore-flagged,
create the shortfall entry.  The worked path passes `iSource = $i - 1` where
`$i` has just run past the unworked loop, and `time_in = $this_time_out`. -/
def mcPostCheck (p : MCParams) (st : MCState) : MCState :=
  if 0 < st.runningWorked ∧ st.runningWorked < st.currentMin ∧ st.thisIgnoreMC ≠ true then
    let missing := st.currentMin - st.runningWorked
    let newOut := tsTimePart (st.lastOutTs.getD 0) + missing
    if p.minimumsAreWorkedTime then
      { st with g := insertWorkedEntry st.g st.g.unworkCount st.thisTimeOut newOut }
    else
      { st with g := appendUnworkedEntry st.g (st.lastRecord.getD default)
                       (tsTimePart (st.lastOutTs.getD 0)) newOut missing }
  else st

/-- "Minimum Calls - BH", end to end: rule/scope guard, flat-rate early exit
(the scan runs over the first `count` repetitions), main loop, unworked
accumulate loop, post-loop check. -/
def mcRun (p : MCParams) (g : ModeVars) : ModeVars :=
  if !p.ruleOk then g
  else if (g.arr.take g.count).any (fun s => s.isFlat) then g
  else
    let st0 : MCState := { g := g, recordCount := g.count }
    let st1 := mcLoopF p (g.count + 1) st0
    let st2 := mcUnworkFold p st1
    (mcPostCheck p st2).g

/-! ## Before/After-Unpaid-Meal Adjuster ("Before/after unpaid meal")

Embedding of `scripts/before-after-unpaid-meal.md`: the preheated contract
values, the Minimum-Call unworked credit scan, the main Time Card Line loop
(gap evaluation then record evaluation), and the Part 3 after-unpaid-meal
check. -/

/-- The contract fields the script preheats (script lines 50-63). -/
structure BAContract where
  hrsBeforeUnpaidMeal : ℚ := 0
  hrsAfterUnpaidMeal : ℚ := 0
  hrsMealBreakMax : Option ℚ := none
  minimumsAreWorkedTime : Bool := true
  hrsMinimumCall : Option ℚ := none
  deriving DecidableEq

/-- The "Minimum Call" / "Minimum Call (2-tier)" rule values used as a
fallback when the contract has no `hrs_minimum_call` (script lines 64-69). -/
structure BAMinRule where
  hour1 : ℚ := 0
  hour2 : Option ℚ := none
  deriving DecidableEq

/-- The preheated local values of the script. -/
structure BAVars where
  before : ℚ := 0
  after : ℚ := 0
  between : ℚ := 0
  maxBrk : ℚ := 24
  minimumsWorked : Bool := true
  minFirst : Option ℚ := none
  minNext : Option ℚ := none
  deriving DecidableEq

/-- Preheat (script lines 50-70): the between-meal minimum is the max of the
before/after minimums when either is unset or nonpositive, else their min;
`hrs_meal_break_max` defaults to 24; the minimum-call values come from the
contract or, failing that, from the Minimum Call rule (`hour2` defaulting to
`hour1`). -/
def baVars (c : BAContract) (r : Option BAMinRule) : BAVars :=
  { before := c.hrsBeforeUnpaidMeal
    after := c.hrsAfterUnpaidMeal
    between :=
      if c.hrsBeforeUnpaidMeal ≤ 0 ∨ c.hrsAfterUnpaidMeal ≤ 0 then
        max c.hrsBeforeUnpaidMeal c.hrsAfterUnpaidMeal
      else min c.hrsBeforeUnpaidMeal c.hrsAfterUnpaidMeal
    maxBrk := c.hrsMealBreakMax.getD 24
    minimumsWorked := c.minimumsAreWorkedTime
    minFirst :=
      match c.hrsMinimumCall with
      | some m => some m
      | none => (r.map fun rv => rv.hour1)
    minNext :=
      match c.hrsMinimumCall with
      | some m => some m
      | none => (r.map fun rv => rv.hour2.getD rv.hour1) }

/-- Which rule produced a padding entry (ghost provenance, from the `note`
parameter at each creation site). -/
inductive BATag where
  | beforeRule
  | afterRule
  deriving DecidableEq

/-- Ghost record of one padding entry the script created: the rule note, the
targeted sequence (worked bill/pay versus unworked), the `time_in` wall time,
and the padded span in seconds. -/
structure BAEntry where
  tag : BATag
  worked : Bool
  timeIn : ℚ
  seconds : ℚ
  deriving DecidableEq

/-- The local variables of "Before/after unpaid meal" Part 2/3, the mode
globals `g`, and the ghost instrumentation `examined`/`created`. -/
structure BAState where
  g : ModeVars
  recordCount : ℕ := 0
  tclLoop : ℕ := 0
  callCount : ℕ := 0
  mealCounter : ℕ := 0
  sinceLastMeal : ℚ := 0
  sinceUnpaidMeal : ℚ := 0
  sinceStartOfCall : ℚ := 0
  lastOutTs : Option ℚ := none
  hrsMinimumCall : Option ℚ := none
  lastIgnoreMC : Bool := false
  thisRecord : Option TCL := none
  examined : List TCL := []
  created : List BAEntry := []
  deriving DecidableEq

/-- A "Create Worked Entry" call from inside this script, without cursor or
count bookkeeping: `iSource = Max ( $tcl_loop - 1; 1 )`, `time_in` the
previous out time, `time_out` that plus the missing hours; the insertion
shifts the array and increments the mode count global. -/
def baInsertWorked (st : BAState) (missingHrs : ℚ) (tag : BATag) : BAState :=
  let iSource := max (st.tclLoop - 1) 1
  let lastOut := tsTimePart (st.lastOutTs.getD 0)
  { st with
      g := insertWorkedEntry st.g iSource lastOut (lastOut + missingHrs * 3600)
      created := st.created ++ [⟨tag, true, lastOut, missingHrs * 3600⟩] }

/-- A main-loop "Create Worked Entry" site: insert, then advance both the
loop cursor `$tcl_loop` and the running count `$record_count` past the
inserted segment. -/
def baCreateWorked (st : BAState) (missingHrs : ℚ) (tag : BATag) : BAState :=
  let st := baInsertWorked st missingHrs tag
  { st with recordCount := st.recordCount + 1, tclLoop := st.tclLoop + 1 }

/-- A "Create Unworked Entry" call from inside this script: source record,
`hrsUnworked` span in seconds anchored at the previous out time; targets the
unworked sequence only (no bill/pay cursor or count change). -/
def baCreateUnworked (st : BAState) (source : TCL) (durSeconds : ℚ) (tag : BATag) : BAState :=
  let lastOut := tsTimePart (st.lastOutTs.getD 0)
  { st with
      g := appendUnworkedEntry st.g source lastOut (lastOut + durSeconds) durSeconds
      created := st.created ++ [⟨tag, false, lastOut, durSeconds⟩] }

/-- Gap evaluation before the current record (script lines 195-256): skipped
without a previous out time or a zero difference; an ignore-flagged record
suppresses the inner branches; a gap beyond the maximum meal break only
advances the call count; otherwise a shortfall against the before/between
requirement creates a padding entry.  In every non-skipped case the meal
buckets empty, the meal counter advances, and a beyond-maximum gap also
resets the start-of-call bucket. -/
def baGapPhase (v : BAVars) (st : BAState) (seg : TCL) : BAState :=
  match st.lastOutTs with
  | none => st
  | some lo =>
    if seg.timeInTs - lo = 0 then st
    else
      let st1 :=
        if seg.ignoreMinimumCall then st
        else if (seg.timeInTs - lo) / 3600 > v.maxBrk then
          { st with callCount := st.callCount + 1 }
        else
          let req := if st.mealCounter = 0 then v.before else v.between
          if st.sinceLastMeal < req then
            if v.minimumsWorked then baCreateWorked st (req - st.sinceLastMeal) BATag.beforeRule
            else
              -- the Case in the unworked parameter reads the unset variable
              -- $this_time_in_ts, which FileMaker arithmetic treats as 0
              let reqU :=
                if st.callCount = 0 then v.before
                else if (0 - lo) / 3600 > v.maxBrk then v.after
                else v.between
              baCreateUnworked st seg ((reqU - st.sinceLastMeal) * 3600) BATag.beforeRule
          else st
      let st2 := { st1 with sinceLastMeal := 0, sinceUnpaidMeal := 0,
                            mealCounter := st1.mealCounter + 1 }
      if (seg.timeInTs - lo) / 3600 > v.maxBrk then { st2 with sinceStartOfCall := 0 } else st2

/-- Evaluation of the current record (script lines 261-322): a paid meal
empties only the last-meal bucket; work adds to all three buckets; an unpaid
meal checks the before-meal requirement (`$last_meal_id` is never assigned in
this script, so the requirement is always the before minimum), creates a
padding entry on a shortfall, then empties the meal buckets, and a meal
longer than the maximum break also resets the start-of-call bucket and
advances the call count. -/
def baRecordPhase (v : BAVars) (st : BAState) (seg : TCL) : BAState :=
  let dur := (seg.timeOutTs - seg.timeInTs) / 3600
  if seg.isPaidMeal then
    { st with sinceLastMeal := 0
              sinceUnpaidMeal := st.sinceUnpaidMeal + dur
              sinceStartOfCall := st.sinceStartOfCall + dur }
  else if !seg.isUnpaidMeal then
    { st with sinceLastMeal := st.sinceLastMeal + dur
              sinceUnpaidMeal := st.sinceUnpaidMeal + dur
              sinceStartOfCall := st.sinceStartOfCall + dur }
  else
    let st1 :=
      if st.sinceLastMeal < v.before then
        if v.minimumsWorked then baCreateWorked st (v.before - st.sinceLastMeal) BATag.beforeRule
        else baCreateUnworked st seg ((v.before - st.sinceLastMeal) * 3600) BATag.beforeRule
      else st
    let st2 := { st1 with sinceLastMeal := 0, sinceUnpaidMeal := 0,
                          mealCounter := st1.mealCounter + 1 }
    if dur > v.maxBrk then
      { st2 with sinceStartOfCall := 0, callCount := st2.callCount + 1 }
    else st2

/-- One iteration of the main Time Card Line loop, processing the record at
1-based position `$tcl_loop`: extract the record, update the per-iteration
minimum-call value and remembered flags, evaluate the gap, evaluate the
record, remember the last out timestamp. -/
def baStep (v : BAVars) (st : BAState) : BAState :=
  match st.g.arr.get? (st.tclLoop - 1) with
  | none => st
  | some seg =>
    let st := { st with
      hrsMinimumCall := if st.callCount = 0 then v.minFirst else v.minNext
      lastIgnoreMC := seg.ignoreMinimumCall
      thisRecord := some seg
      examined := st.examined ++ [seg] }
    let st := baGapPhase v st seg
    let st := baRecordPhase v st seg
    { st with lastOutTs := some seg.timeOutTs }

/-- The main Time Card Line loop: the 1-based cursor is incremented before
the exit test against `$record_count`; the fuel argument bounds the number of
iterations and is supplied by `baRun` from the initial loop measure. -/
def baLoopF (v : BAVars) : ℕ → BAState → BAState
  | 0, st => st
  | n + 1, st =>
    let st1 := { st with tclLoop := st.tclLoop + 1 }
    if st1.recordCount < st1.tclLoop then st1
    else baLoopF v n (baStep v st1)

/-- Part 3 (script lines 338-368): if at least one meal was seen and the
work since the last unpaid meal is below the after-unpaid-meal minimum, and
the after-meal padding would exceed the remaining minimum-call shortfall (so
Minimum Call would not fill the card anyway), and the last record is not
ignore-flagged, create one final padding entry whose length is the
after-unpaid-meal minimum less `$since_last_meal`. -/
def baPartThree (v : BAVars) (st : BAState) : BAState :=
  if 0 < st.mealCounter ∧ st.sinceUnpaidMeal < v.after then
    match st.hrsMinimumCall with
    | none => st
    | some mc =>
      if v.after - st.sinceUnpaidMeal > mc - st.sinceStartOfCall then
        if st.lastIgnoreMC then st
        else if v.minimumsWorked then
          baInsertWorked st (v.after - st.sinceLastMeal) BATag.afterRule
        else
          baCreateUnworked st (st.thisRecord.getD default)
            ((v.after - st.sinceLastMeal) * 3600) BATag.afterRule
      else st
  else st

/-- The Minimum-Call unworked credit scan at the start of Part 2 (script
lines 150-164): sum `hrsUnworked` over the mode-matching `isMinimumCall`
entries of `$$unwork[]`. -/
def mcUnworkCredit (isBillMode : Bool) (unwork : List TCL) : ℚ :=
  unwork.foldl
    (fun acc u =>
      if (isBillMode && u.isBill) || (!isBillMode && u.isPay) then
        if u.isMinimumCall then acc + u.hrsUnworked else acc
      else acc)
    0

/-- The initial Part 2 state: the record count read from the mode count
global, the last-meal bucket seeded with the Part 1 history hours plus the
Minimum-Call unworked credit (seconds over 3600), and the start-of-call
bucket initialized from the last-meal bucket. -/
def baInit (isBillMode : Bool) (historyHours : ℚ) (g : ModeVars) : BAState :=
  let slm := historyHours + mcUnworkCredit isBillMode g.unwork / 3600
  { g := g
    recordCount := g.count
    sinceLastMeal := slm
    sinceStartOfCall := slm }

/-- "Before/after unpaid meal", Parts 2 and 3 end to end (Part 1 history
scanning contributes only the initial `historyHours`). -/
def baRun (v : BAVars) (isBillMode : Bool) (historyHours : ℚ) (g : ModeVars) : BAState :=
  baPartThree v (baLoopF v (g.count + 1) (baInit isBillMode historyHours g))

/-! ## Concrete scenarios used by the claims -/

/-- Total credited seconds of a mode state: timestamp spans of the bill/pay
segments plus the `hrsUnworked` credits of the unworked entries. -/
def mcTotalSeconds (g : ModeVars) : ℚ :=
  (g.arr.map (fun s => s.timeOutTs - s.timeInTs)).sum
    + (g.unwork.map (fun s => s.hrsUnworked)).sum

/-- A single one-hour Clock-derived billable segment, 9:00-10:00. -/
def c6Seg : TCL :=
  { timeIn := 32400, timeOut := 36000, timeInTs := 32400, timeOutTs := 36000, isBill := true }

/-- Minimum Calls parameters with a 4-hour first-call minimum and a 6-hour
maximum meal break; `b` selects worked-time versus unworked minimums. -/
def c6Params (b : Bool) : MCParams :=
  { isBillMode := true, ruleOk := true, hrsMinimumFirst := 4, hrsMinimumNext := 4,
    minimumsAreWorkedTime := b, hrsMealBreakMax := some 6 }

/-- "Minimum Calls - BH" on the single one-hour segment. -/
def c6Run (b : Bool) : ModeVars := mcRun (c6Params b) { arr := [c6Seg], count := 1 }

/-- A five-hour billable segment, 9:00-14:00. -/
def c4Seg1 : TCL :=
  { timeIn := 32400, timeOut := 50400, timeInTs := 32400, timeOutTs := 50400, isBill := true }

/-- A half-hour billable segment, 15:00-15:30, after a one-hour gap. -/
def c4Seg2 : TCL :=
  { timeIn := 54000, timeOut := 55800, timeInTs := 54000, timeOutTs := 55800, isBill := true }

/-- A contract with `after_unpaid_meal = 2` hours (before-minimum 3 hours,
maximum meal break 6 hours, minimum call 4 hours); `b` selects worked-time
versus unworked minimums. -/
def c4Contract (b : Bool) : BAContract :=
  { hrsBeforeUnpaidMeal := 3, hrsAfterUnpaidMeal := 2, hrsMealBreakMax := some 6,
    minimumsAreWorkedTime := b, hrsMinimumCall := some 4 }

/-- The mode globals holding the two segments of the after-unpaid-meal
scenario. -/
def c4G : ModeVars := { arr := [c4Seg1, c4Seg2], count := 2 }

/-- "Before/after unpaid meal" on the 5-hour segment, 1-hour gap, 0.5-hour
segment scenario. -/
def c4Run (b : Bool) : BAState := baRun (baVars (c4Contract b) none) true 0 c4G

/-- A flat-rate (show call) billable segment. -/
def c10Seg : TCL :=
  { timeIn := 32400, timeOut := 36000, timeInTs := 32400, timeOutTs := 36000,
    isBill := true, isFlat := true }

/-- Mode globals containing a flat-rate segment. -/
def c10G : ModeVars := { arr := [c6Seg, c10Seg], count := 2 }

/-- A state in mid-loop with a previous out time at timestamp 36000, for the
gap-boundary claim. -/
def c5St : BAState := { g := c4G, recordCount := 2, tclLoop := 2, lastOutTs := some 36000 }

/-- A segment starting 25 hours after the previous out time. -/
def c5Seg : TCL :=
  { timeIn := 39600, timeOut := 43200, timeInTs := 126000, timeOutTs := 129600, isBill := true }

/-- Flags of a meal-penalty record that inherited a holiday flag and is also
flagged weekly overtime. -/
def c1Cex : ColFlags := { isMP1 := true, isHoliday := true, isOTWeekly := true }

/-- Flags of a meal-penalty record that inherited a holiday flag and nothing
else. -/
def c1Wit : ColFlags := { isMP1 := true, isHoliday := true }

/-- Flags carrying only the 6th-consecutive-day premium. -/
def c7Cex : ColFlags := { isConsecutiveDay6th := true }

/-- A record with no flags at all. -/
def colFlagsNone : ColFlags := {}

/-- A single billable segment spanning midnight, 22:00-02:00 on day 0. -/
def c9Seg : TCL :=
  { date := 0, timeIn := 79200, timeOut := 7200, timeInTs := 79200, timeOutTs := 93600,
    isBill := true }


/-- Preheated "Before/after unpaid meal" values for the C4 scenario contract. -/
def c4V (b : Bool) : BAVars := baVars (c4Contract b) none

/-- Initial Part 2 state of the C4 scenario. -/
def c4St0 : BAState := { g := c4G, recordCount := 2 }

/-- C4 scenario state after the first main-loop iteration. -/
def c4M1 : BAState :=
  { g := c4G, recordCount := 2, tclLoop := 1,
    sinceLastMeal := 5, sinceUnpaidMeal := 5, sinceStartOfCall := 5,
    lastOutTs := some 50400, hrsMinimumCall := some 4,
    thisRecord := some c4Seg1, examined := [c4Seg1] }

/-- C4 scenario state after the second main-loop iteration. -/
def c4M2 : BAState :=
  { g := c4G, recordCount := 2, tclLoop := 2, mealCounter := 1,
    sinceLastMeal := 1/2, sinceUnpaidMeal := 1/2, sinceStartOfCall := 11/2,
    lastOutTs := some 55800, hrsMinimumCall := some 4,
    thisRecord := some c4Seg2, examined := [c4Seg1, c4Seg2] }

/-- The worked padding segment Part 3 appends in the C4 scenario:
15:30-17:00, i.e. 1.5 hours anchored at the second segment's end. -/
def c4Pad : TCL :=
  { timeIn := 55800, timeOut := 61200, timeInTs := 55800, timeOutTs := 61200,
    isBill := true, isMinimumCall := true }

/-- The unworked padding entry Part 3 creates in the C4 scenario:
1.5 credited hours anchored at the second segment's end. -/
def c4UPad : TCL :=
  { timeIn := 55800, timeOut := 61200, timeInTs := 55800, timeOutTs := 61200,
    hrsUnworked := 5400, isBill := true, isMinimumCall := true }

/-- Initial state of the C6 Minimum Calls run. -/
def c6St0 : MCState := { g := { arr := [c6Seg], count := 1 }, recordCount := 1 }

/-- C6 scenario state after the single main-loop iteration. -/
def c6Mid : MCState :=
  { g := { arr := [c6Seg], count := 1 }, i := 1, recordCount := 1,
    runningWorked := 3600, lastOutTs := some 36000, startOfCallRep := 1,
    currentMin := 14400, lastRecord := some c6Seg, thisTimeOut := 36000 }

/-- The worked padding segment the C6 post-loop check inserts: 10:00-13:00,
three hours from the last out time (duplicated from an empty source record,
since the post-loop site passes `iSource = $i - 1 = 0`). -/
def c6PadSeg : TCL :=
  { timeIn := 36000, timeOut := 46800, timeInTs := 36000, timeOutTs := 46800,
    isMinimumCall := true }

/-- The unworked padding entry the C6 post-loop check creates: three credited
hours from the last out time. -/
def c6UnworkSeg : TCL :=
  { timeIn := 36000, timeOut := 46800, timeInTs := 36000, timeOutTs := 46800,
    hrsUnworked := 10800, isBill := true, isMinimumCall := true }

/-! ## C1 — meal-penalty/holiday column routing -/

/-- C1 counterexample: a segment flagged `isMP1` and `isHoliday` (meal-penalty
ignore not set) that is also flagged `isOTWeekly` is routed by the bill/pay
cascade to the Double column `hrsColumn2` (the holiday-with-overtime condition
fires before the meal-penalty condition), not to `hrsColumn4`; so as
universally stated the claim fails. -/
theorem c1_mp_holiday_weeklyOT_routes_double :
    c1Cex.isMP1 = true ∧ c1Cex.isHoliday = true ∧ c1Cex.ignoreMealPenatly = false
      ∧ billPayTarget c1Cex = some 2
      ∧ persistedColumns false c1Cex 3600 2 = some 1
      ∧ persistedColumns false c1Cex 3600 4 = none := by
  with_unfolding_all decide

/-- C1 (amended): a segment flagged meal-penalty tier 1 or 2 together with
holiday, whose meal-penalty ignore override is not set and which carries none
of the unpaid-meal, drive-time, daily/weekly-overtime or consecutive-day
flags, is routed to the Meal-Penalty column `hrsColumn4` by both cascades —
in particular never to `hrsColumn1` or `hrsColumn2` — because the
meal-penalty condition is evaluated before the holiday and day-of-week
conditions. -/
theorem c1_mp_holiday_routes_meal_penalty (f : ColFlags)
    (hmp : (f.isMP1 || f.isMP2) = true) (hh : f.isHoliday = true)
    (hig : f.ignoreMealPenatly = false)
    (hu : f.isUnpaidMeal = false) (hd : f.isDriveTime = false)
    (ho1 : f.isOTDailyL1 = false) (ho2 : f.isOTDailyL2 = false)
    (hw : f.isOTWeekly = false)
    (h6 : f.isConsecutiveDay6th = false) (h7 : f.isConsecutiveDay7th = false)
    (h8 : f.isConsecutiveDay8th = false) :
    billPayTarget f = some 4 ∧ unworkTarget f = some 4 := by
  obtain ⟨u, d, o1, o2, w, h, c6, c7, c8, m1, m2, nr, dw, igo, igm, igh, ign⟩ := f
  dsimp only at *
  subst hh hig hu hd ho1 ho2 hw h6 h7 h8
  revert hmp
  revert m1 m2 nr dw igo igh ign
  decide

/-- C1 witness: the amended routing at a record flagged only `isMP1` and
`isHoliday`. -/
theorem c1_mp_holiday_routes_meal_penalty_witness :
    (c1Wit.isMP1 || c1Wit.isMP2) = true
      ∧ billPayTarget c1Wit = some 4 ∧ unworkTarget c1Wit = some 4 :=
  ⟨rfl, c1_mp_holiday_routes_meal_penalty c1Wit rfl rfl rfl rfl rfl rfl rfl rfl rfl rfl rfl⟩

/-! ## C7 — bill/pay cascade versus unworked cascade -/

/-- C7 counterexample: a segment flagged only 6th-consecutive-day is routed
to Overtime `hrsColumn1` by the bill/pay cascade but to Standard `hrsColumn0`
by the unworked cascade, so the two cascades do not classify identically. -/
theorem c7_cascades_differ_on_consecutive_day :
    billPayTarget c7Cex = some 1 ∧ unworkTarget c7Cex = some 0
      ∧ billPayTarget c7Cex ≠ unworkTarget c7Cex := by
  decide

/-- C7 (amended): the bill/pay and unworked cascades classify identically on
every flag assignment in which the three consecutive-day flags are clear and
tier-1 daily overtime and weekly overtime are not both set; they diverge on
some assignments outside that set (consecutive-day flags reach the overtime
and double conditions only in the bill/pay cascade, and the `Sum (...) > 1`
test counts tier-1-daily plus weekly as double time). -/
theorem c7_cascades_agree_without_consecutive_day (f : ColFlags)
    (h6 : f.isConsecutiveDay6th = false) (h7 : f.isConsecutiveDay7th = false)
    (h8 : f.isConsecutiveDay8th = false)
    (hAW : (f.isOTDailyL1 && f.isOTWeekly) = false) :
    billPayTarget f = unworkTarget f := by
  obtain ⟨u, d, o1, o2, w, h, c6, c7, c8, m1, m2, nr, dw, igo, igm, igh, ign⟩ := f
  dsimp only at h6 h7 h8 hAW
  subst h6 h7 h8
  revert hAW
  revert u d o1 o2 w h m1 m2 nr dw igo igm igh ign
  decide

/-- C7 witness: the cascades agree on the all-clear flag assignment. -/
theorem c7_cascades_agree_witness :
    (colFlagsNone.isOTDailyL1 && colFlagsNone.isOTWeekly) = false
      ∧ billPayTarget colFlagsNone = unworkTarget colFlagsNone :=
  ⟨rfl, c7_cascades_agree_without_consecutive_day colFlagsNone rfl rfl rfl rfl⟩

/-! ## C2 — exactly one populated hour column -/

/-- The target column of an unpaid-meal record is empty in both cascades. -/
theorem target_none_of_unpaidMeal (f : ColFlags) (h : f.isUnpaidMeal = true) :
    billPayTarget f = none ∧ unworkTarget f = none := by
  constructor
  · unfold billPayTarget; simp [h]
  · unfold unworkTarget; simp [h]

/-- Every record that is not an unpaid meal gets some target column in both
cascades. -/
theorem target_some_of_not_unpaidMeal (f : ColFlags) (h : f.isUnpaidMeal = false) :
    (∃ c, billPayTarget f = some c) ∧ (∃ c, unworkTarget f = some c) := by
  constructor
  · unfold billPayTarget; simp only [h, Bool.false_eq_true, if_false]
    split_ifs <;> exact ⟨_, rfl⟩
  · unfold unworkTarget; simp only [h, Bool.false_eq_true, if_false]
    split_ifs <;> exact ⟨_, rfl⟩

/-- C2 counterexample: a zero-duration segment that is not an unpaid meal is
persisted with all six hour columns empty (the router writes empty instead of
a zero value), so "exactly one column, never zero unless unpaid-meal" fails. -/
theorem c2_zero_duration_populates_no_column :
    colFlagsNone.isUnpaidMeal = false
      ∧ (∀ c : Fin 6, persistedColumns false colFlagsNone 0 c = none)
      ∧ (∀ c : Fin 6, persistedColumns true colFlagsNone 0 c = none) := by
  with_unfolding_all decide

/-- C2 (amended): in both persistence loops, at most one hour column is ever
populated; an unpaid-meal record populates none; and a record that is not an
unpaid meal and has nonzero duration populates exactly one column, which
receives the duration in hours, all others being cleared to empty.  A
zero-duration record populates no column (its target is written empty). -/
theorem c2_exactly_one_column (u : Bool) (f : ColFlags) (dur : ℚ) :
    (∀ c c' : Fin 6, persistedColumns u f dur c ≠ none →
        persistedColumns u f dur c' ≠ none → c = c')
      ∧ (f.isUnpaidMeal = true → ∀ c, persistedColumns u f dur c = none)
      ∧ (f.isUnpaidMeal = false → dur ≠ 0 →
          ∃ c, persistedColumns u f dur c = some (dur / 3600)
            ∧ ∀ c', c' ≠ c → persistedColumns u f dur c' = none) := by
  refine ⟨?_, ?_, ?_⟩
  · intro c c' hc hc'
    unfold persistedColumns routeColumns at hc hc'
    by_cases h1 : (if u then unworkTarget f else billPayTarget f) = some c
    · by_cases h2 : (if u then unworkTarget f else billPayTarget f) = some c'
      · rw [h1] at h2; exact (Option.some_inj.mp h2)
      · rw [if_neg h2] at hc'; exact absurd rfl hc'
    · rw [if_neg h1] at hc; exact absurd rfl hc
  · intro h c
    unfold persistedColumns routeColumns
    have ht := target_none_of_unpaidMeal f h
    cases u <;> simp [ht.1, ht.2]
  · intro h hdur
    have ht := target_some_of_not_unpaidMeal f h
    have hv : hourColumnValue dur = some (dur / 3600) := by
      unfold hourColumnValue
      rw [if_neg (by exact fun hz => hdur (by
        have := (div_eq_zero_iff).mp hz
        rcases this with h0 | h0
        · exact h0
        · norm_num at h0))]
    obtain ⟨c, hc⟩ := (if hu : u = true then (by rw [hu]; exact ht.2) else
      (by rw [eq_false_of_ne_true hu]; exact ht.1) :
        ∃ c, (if u then unworkTarget f else billPayTarget f) = some c)
    refine ⟨c, ?_, ?_⟩
    · unfold persistedColumns routeColumns
      rw [hc, if_pos rfl, hv]
    · intro c' hne
      unfold persistedColumns routeColumns
      rw [hc]
      rw [if_neg (by simpa using fun h => hne (h.symm))]

/-! ## C6 — minimum call pads a one-hour segment to four hours -/

/-- Evaluation of the C6 run down to the post-loop check. -/
theorem c6_run_unfold (b : Bool) :
    c6Run b = (mcPostCheck (c6Params b) (mcUnworkFold (c6Params b)
      (mcLoopF (c6Params b) 2 c6St0))).g := by
  cases b <;> rfl

/-- Evaluation of the C6 main loop. -/
theorem c6_loop_eval (b : Bool) :
    mcLoopF (c6Params b) 2 c6St0 = { c6Mid with i := 2 } := by
  have e2t : mcStep (c6Params true) { c6St0 with i := 1 } = c6Mid := by
    with_unfolding_all rfl
  have e2f : mcStep (c6Params false) { c6St0 with i := 1 } = c6Mid := by
    with_unfolding_all rfl
  cases b
  · have e1 : mcLoopF (c6Params false) 2 c6St0
        = mcLoopF (c6Params false) 1 (mcStep (c6Params false) { c6St0 with i := 1 }) := rfl
    rw [e1, e2f]; rfl
  · have e1 : mcLoopF (c6Params true) 2 c6St0
        = mcLoopF (c6Params true) 1 (mcStep (c6Params true) { c6St0 with i := 1 }) := rfl
    rw [e1, e2t]; rfl

/-- Evaluation of the C6 run, worked-time minimums. -/
theorem c6_run_worked :
    c6Run true = { arr := [c6PadSeg, c6Seg], count := 2 } := by
  rw [c6_run_unfold, c6_loop_eval]
  have h2 : mcUnworkFold (c6Params true) { c6Mid with i := 2 } = { c6Mid with i := 2 } := rfl
  rw [h2]
  with_unfolding_all rfl

/-- Evaluation of the C6 run, unworked minimums. -/
theorem c6_run_unworked :
    c6Run false = { arr := [c6Seg], count := 1, unwork := [c6UnworkSeg], unworkCount := 1 } := by
  rw [c6_run_unfold, c6_loop_eval]
  have h2 : mcUnworkFold (c6Params false) { c6Mid with i := 2 } = { c6Mid with i := 2 } := rfl
  rw [h2]
  with_unfolding_all rfl

/-- C6: a single one-hour Clock segment under a 4-hour first-call minimum is
credited exactly four hours in total, in both modes of the Minimum Call
enforcer: with `minimums_are_worked_time` the padding is a worked three-hour
bill/pay segment whose `time_in` is the last out time, otherwise it is an
Unworked entry with `hrsUnworked` of three hours; the original segment is
untouched in both cases. -/
theorem c6_minimum_call_pads_to_four_hours :
    mcTotalSeconds (c6Run true) = 4 * 3600
    ∧ mcTotalSeconds (c6Run false) = 4 * 3600
    ∧ ((c6Run true).arr.map fun s => (s.timeIn, s.timeOut, s.isMinimumCall))
        = [(36000, 46800, true), (32400, 36000, false)]
    ∧ (c6Run true).unwork = []
    ∧ ((c6Run true).arr.headD default).timeIn = c6Seg.timeOut
    ∧ (c6Run false).arr = [c6Seg]
    ∧ ((c6Run false).unwork.map fun s => (s.hrsUnworked, s.timeIn)) = [(3 * 3600, c6Seg.timeOut)] := by
  rw [c6_run_worked, c6_run_unworked]
  refine ⟨?_, ?_, ?_, ?_, ?_, ?_, ?_⟩ <;>
    norm_num [mcTotalSeconds, c6PadSeg, c6Seg, c6UnworkSeg]

/-! ## C4 — after-unpaid-meal shortfall of exactly 1.5 hours -/

/-- Evaluation of the C4 run down to Part 3 applied to the final loop state. -/
theorem c4_run_unfold (b : Bool) :
    c4Run b = baPartThree (c4V b) { c4M2 with tclLoop := 3 } := by
  have e2t : baStep (c4V true) { c4St0 with tclLoop := 1 } = c4M1 := by
    with_unfolding_all rfl
  have e2f : baStep (c4V false) { c4St0 with tclLoop := 1 } = c4M1 := by
    with_unfolding_all rfl
  have e4t : baStep (c4V true) { c4M1 with tclLoop := 2 } = c4M2 := by
    with_unfolding_all rfl
  have e4f : baStep (c4V false) { c4M1 with tclLoop := 2 } = c4M2 := by
    with_unfolding_all rfl
  cases b
  · have h0 : c4Run false
        = baPartThree (c4V false) (baLoopF (c4V false) 3 (baInit true 0 c4G)) := rfl
    have e0 : baInit true 0 c4G = c4St0 := by with_unfolding_all rfl
    have e1 : baLoopF (c4V false) 3 c4St0
        = baLoopF (c4V false) 2 (baStep (c4V false) { c4St0 with tclLoop := 1 }) := rfl
    have e3 : baLoopF (c4V false) 2 c4M1
        = baLoopF (c4V false) 1 (baStep (c4V false) { c4M1 with tclLoop := 2 }) := rfl
    have e5 : baLoopF (c4V false) 1 c4M2 = { c4M2 with tclLoop := 3 } := rfl
    rw [h0, e0, e1, e2f, e3, e4f, e5]
  · have h0 : c4Run true
        = baPartThree (c4V true) (baLoopF (c4V true) 3 (baInit true 0 c4G)) := rfl
    have e0 : baInit true 0 c4G = c4St0 := by with_unfolding_all rfl
    have e1 : baLoopF (c4V true) 3 c4St0
        = baLoopF (c4V true) 2 (baStep (c4V true) { c4St0 with tclLoop := 1 }) := rfl
    have e3 : baLoopF (c4V true) 2 c4M1
        = baLoopF (c4V true) 1 (baStep (c4V true) { c4M1 with tclLoop := 2 }) := rfl
    have e5 : baLoopF (c4V true) 1 c4M2 = { c4M2 with tclLoop := 3 } := rfl
    rw [h0, e0, e1, e2t, e3, e4t, e5]

/-- Part 3 of the C4 run, worked-time minimums. -/
theorem c4_run_worked :
    c4Run true = { c4M2 with tclLoop := 3
                             g := { arr := [c4Seg1, c4Seg2, c4Pad], count := 3 }
                             created := [⟨BATag.afterRule, true, 55800, 5400⟩] } := by
  rw [c4_run_unfold]
  with_unfolding_all rfl

/-- Part 3 of the C4 run, unworked minimums. -/
theorem c4_run_unworked :
    c4Run false = { c4M2 with tclLoop := 3
                              g := { arr := [c4Seg1, c4Seg2], count := 2,
                                     unwork := [c4UPad], unworkCount := 1 }
                              created := [⟨BATag.afterRule, false, 55800, 5400⟩] } := by
  rw [c4_run_unfold]
  with_unfolding_all rfl

/-- C4: on a 5-hour segment, a 1-hour meal-break gap, and a 0.5-hour segment
under a contract with `after_unpaid_meal = 2` hours, the adjuster's post-loop
check creates exactly one shortfall padding entry — of exactly 1.5 hours
(5400 seconds), anchored with `time_in` equal to the second segment's
`time_out` — in both minimums modes; the check triggered on
`since_unpaid_meal` (one half hour, below the 2-hour after-meal minimum). -/
theorem c4_after_meal_shortfall_scenario :
    (c4Run true).created = [⟨BATag.afterRule, true, c4Seg2.timeOut, 5400⟩]
    ∧ (c4Run false).created = [⟨BATag.afterRule, false, c4Seg2.timeOut, 5400⟩]
    ∧ (c4Run true).sinceUnpaidMeal = 1/2
    ∧ (c4Run true).sinceUnpaidMeal < (c4V true).after
    ∧ (c4V true).after - (c4Run true).sinceLastMeal = 3/2 := by
  rw [c4_run_worked, c4_run_unworked]
  refine ⟨?_, ?_, ?_, ?_, ?_⟩ <;>
    norm_num [c4M2, c4Seg1, c4Seg2, c4V, baVars, c4Contract]

/-! ## C5 — a gap beyond the maximum meal break is a call boundary -/

/-- C5: when the gap before the current record exceeds `meal_break_max`, the
gap evaluation creates no padding entry anywhere (the mode globals, the loop
cursor and the running count are untouched), only empties the running buckets
(`since_last_meal`, `since_unpaid_meal`, `since_start_of_call`) and, when the
record is not ignore-flagged, advances the call index. -/
theorem c5_gap_beyond_max_creates_no_entry (v : BAVars) (st : BAState) (seg : TCL) (lo : ℚ)
    (hlo : st.lastOutTs = some lo)
    (hneq : ¬ seg.timeInTs - lo = 0)
    (hgap : (seg.timeInTs - lo) / 3600 > v.maxBrk) :
    (baGapPhase v st seg).created = st.created
    ∧ (baGapPhase v st seg).g = st.g
    ∧ (baGapPhase v st seg).tclLoop = st.tclLoop
    ∧ (baGapPhase v st seg).recordCount = st.recordCount
    ∧ (baGapPhase v st seg).sinceLastMeal = 0
    ∧ (baGapPhase v st seg).sinceUnpaidMeal = 0
    ∧ (baGapPhase v st seg).sinceStartOfCall = 0
    ∧ (baGapPhase v st seg).mealCounter = st.mealCounter + 1
    ∧ (seg.ignoreMinimumCall = false → (baGapPhase v st seg).callCount = st.callCount + 1) := by
  unfold baGapPhase
  rw [hlo]
  cases hig : seg.ignoreMinimumCall <;> simp [hneq, hig, hgap]

/-- C5 witness: the gap evaluation at a 25-hour gap against a 6-hour maximum
meal break. -/
theorem c5_gap_beyond_max_witness :
    ((c5Seg.timeInTs - 36000) / 3600 > (c4V true).maxBrk)
    ∧ (baGapPhase (c4V true) c5St c5Seg).created = c5St.created
    ∧ (baGapPhase (c4V true) c5St c5Seg).g = c5St.g
    ∧ (baGapPhase (c4V true) c5St c5Seg).sinceStartOfCall = 0
    ∧ (baGapPhase (c4V true) c5St c5Seg).callCount = c5St.callCount + 1 := by
  have h := c5_gap_beyond_max_creates_no_entry (c4V true) c5St c5Seg 36000
    (by with_unfolding_all rfl) (by with_unfolding_all decide) (by with_unfolding_all decide)
  exact ⟨by with_unfolding_all decide, h.1, h.2.1, h.2.2.2.2.2.2.1, h.2.2.2.2.2.2.2.2 rfl⟩

/-! ## C8 — overlap validation -/

/-- Midnight Split leaves a wrap-free prefix untouched, splits the first
record bearing the wraparound signature, and copies the remainder verbatim. -/
theorem midnightSplit_append (post : List TCL) (x : TCL) (hx : wrapSignature x = true) :
    ∀ pre : List TCL, (∀ s ∈ pre, wrapSignature s = false) →
      midnightSplit (pre ++ x :: post) = pre ++ splitFirst x :: splitSecond x :: post := by
  intro pre
  induction pre with
  | nil =>
    intro _
    simp [midnightSplit, hx]
  | cons a l ih =>
    intro hpre
    have ha : wrapSignature a = false := hpre a (List.mem_cons_self a l)
    have hrec := ih (fun s hs => hpre s (List.mem_cons_of_mem a hs))
    simp [midnightSplit, ha, hrec]

/-- C9: a single Midnight Split invocation splits exactly the first
wraparound segment: a wrap-free prefix and the entire remainder after the hit
are copied unchanged (so at most one segment is split per invocation); the
original's `time_out` becomes midnight with `is_after_midnight` cleared, the
copy inserted directly after it starts at midnight, keeps the original
`time_out` with `is_after_midnight` set, and the two spans abut at the
midnight timestamp and jointly cover the original span. -/
theorem c9_midnight_split_first_span_only (pre post : List TCL) (x : TCL)
    (hpre : ∀ s ∈ pre, wrapSignature s = false)
    (hx : wrapSignature x = true)
    (hts : x.timeOutTs = ((x.date : ℚ) + 1) * 86400 + x.timeOut) :
    midnightSplit (pre ++ x :: post) = pre ++ splitFirst x :: splitSecond x :: post
      ∧ (splitFirst x).timeOut = 0
      ∧ (splitFirst x).isAfterMidnight = false
      ∧ (splitSecond x).timeIn = 0
      ∧ (splitSecond x).timeOut = x.timeOut
      ∧ (splitSecond x).isAfterMidnight = true
      ∧ (splitFirst x).timeInTs = x.timeInTs
      ∧ (splitFirst x).timeOutTs = (splitSecond x).timeInTs
      ∧ (splitSecond x).timeOutTs = x.timeOutTs :=
  ⟨midnightSplit_append post x hx pre hpre, rfl, rfl, rfl, rfl, rfl, rfl, rfl, hts.symm⟩

/-- C9 witness: the 22:00-02:00 segment splits into the two abutting halves,
the second of which keeps the original out time. -/
theorem c9_midnight_split_first_span_only_witness :
    midnightSplit [c9Seg] = [splitFirst c9Seg, splitSecond c9Seg]
      ∧ (splitSecond c9Seg).timeOut = c9Seg.timeOut := by
  have h := c9_midnight_split_first_span_only [] [] c9Seg
    (fun s hs => absurd hs (List.not_mem_nil s))
    (by with_unfolding_all decide) (by norm_num [c9Seg])
  exact ⟨h.1, h.2.2.2.2.1⟩

/-! ## C10 — a flat-rate segment freezes the Minimum Call enforcer -/

/-- C10: when the mode count covers the array, one flat-rate (show call)
segment anywhere in the bill/pay sequence makes the Minimum Call enforcer
exit before its main loop: the mode globals — bill/pay array, unworked array
and both counts — come back exactly as given and no padding is created. -/
theorem c10_flat_rate_freezes_minimum_calls (p : MCParams) (g : ModeVars)
    (hcount : g.count = g.arr.length)
    (hflat : ∃ s ∈ g.arr, s.isFlat = true) :
    mcRun p g = g := by
  obtain ⟨s, hs, hf⟩ := hflat
  have hany : (g.arr.take g.count).any (fun s => s.isFlat) = true := by
    rw [hcount, List.take_length]
    exact List.any_eq_true.mpr ⟨s, hs, hf⟩
  unfold mcRun
  cases hr : p.ruleOk <;> simp [hany]

/-- C10 witness: the enforcer returns the two-segment store with a flat-rate
second segment untouched. -/
theorem c10_flat_rate_freezes_minimum_calls_witness :
    mcRun (c6Params true) c10G = c10G :=
  c10_flat_rate_freezes_minimum_calls (c6Params true) c10G rfl
    ⟨c10Seg, by simp [c10G], rfl⟩

/-! ## C3 — the main loop examines each original segment exactly once -/

/-- Dropping one past an insertion made at or before the drop point recovers
the original suffix. -/
theorem drop_insertIdx_of_le {α : Type} (x : α) :
    ∀ (k : ℕ) (l : List α) (m : ℕ), k ≤ m →
      (l.insertIdx k x).drop (m + 1) = l.drop m := by
  intro k
  induction k with
  | zero =>
    intro l m _
    rw [List.insertIdx_zero, List.drop_succ_cons]
  | succ k ih =>
    intro l m h
    cases l with
    | nil =>
      rw [List.insertIdx_succ_nil]
      simp
    | cons a t =>
      cases m with
      | zero => omega
      | succ m =>
        rw [List.insertIdx_succ_cons, List.drop_succ_cons, List.drop_succ_cons,
          ih t m (by omega)]

/-- The gap-evaluation phase moves the cursor, the running count, and the
bill/pay array length together — by the single inserted entry when it pads
into the worked sequence, not at all otherwise — keeps the array suffix
beyond the cursor, and never touches the examined trace. -/
theorem baGapPhase_shift (v : BAVars) (st : BAState) (seg : TCL)
    (h1 : 1 ≤ st.tclLoop) (h2 : st.tclLoop ≤ st.g.arr.length) :
    ∃ k : ℕ,
      (baGapPhase v st seg).tclLoop = st.tclLoop + k
      ∧ (baGapPhase v st seg).recordCount = st.recordCount + k
      ∧ (baGapPhase v st seg).g.arr.length = st.g.arr.length + k
      ∧ (baGapPhase v st seg).g.arr.drop (baGapPhase v st seg).tclLoop
          = st.g.arr.drop st.tclLoop
      ∧ (baGapPhase v st seg).examined = st.examined := by
  have hlen : ∀ x : TCL,
      (st.g.arr.insertIdx (max (st.tclLoop - 1) 1) x).length = st.g.arr.length + 1 :=
    fun x => List.length_insertIdx _ _
      (max_le (Nat.le_trans (Nat.sub_le _ _) h2) (Nat.le_trans h1 h2))
  have hdrop : ∀ x : TCL,
      (st.g.arr.insertIdx (max (st.tclLoop - 1) 1) x).drop (st.tclLoop + 1)
        = st.g.arr.drop st.tclLoop :=
    fun x => drop_insertIdx_of_le x _ _ _ (max_le (Nat.sub_le _ _) h1)
  unfold baGapPhase
  cases st.lastOutTs with
  | none => exact ⟨0, rfl, rfl, rfl, rfl, rfl⟩
  | some lo =>
    dsimp only
    by_cases hz : seg.timeInTs - lo = 0
    · rw [if_pos hz]
      exact ⟨0, rfl, rfl, rfl, rfl, rfl⟩
    · rw [if_neg hz]
      by_cases hig : seg.ignoreMinimumCall = true
      · rw [if_pos hig]
        by_cases hgap : (seg.timeInTs - lo) / 3600 > v.maxBrk
        · rw [if_pos hgap]
          exact ⟨0, rfl, rfl, rfl, rfl, rfl⟩
        · rw [if_neg hgap]
          exact ⟨0, rfl, rfl, rfl, rfl, rfl⟩
      · rw [if_neg hig]
        by_cases hgap : (seg.timeInTs - lo) / 3600 > v.maxBrk
        · rw [if_pos hgap, if_pos hgap]
          exact ⟨0, rfl, rfl, rfl, rfl, rfl⟩
        · rw [if_neg hgap, if_neg hgap]
          by_cases hm : st.mealCounter = 0
          · rw [if_pos hm]
            by_cases hsh : st.sinceLastMeal < v.before
            · rw [if_pos hsh]
              by_cases hmw : v.minimumsWorked = true
              · rw [if_pos hmw]
                exact ⟨1, rfl, rfl, hlen _, hdrop _, rfl⟩
              · rw [if_neg hmw]
                exact ⟨0, rfl, rfl, rfl, rfl, rfl⟩
            · rw [if_neg hsh]
              exact ⟨0, rfl, rfl, rfl, rfl, rfl⟩
          · rw [if_neg hm]
            by_cases hsh : st.sinceLastMeal < v.between
            · rw [if_pos hsh]
              by_cases hmw : v.minimumsWorked = true
              · rw [if_pos hmw]
                exact ⟨1, rfl, rfl, hlen _, hdrop _, rfl⟩
              · rw [if_neg hmw]
                exact ⟨0, rfl, rfl, rfl, rfl, rfl⟩
            · rw [if_neg hsh]
              exact ⟨0, rfl, rfl, rfl, rfl, rfl⟩

/-- The record-evaluation phase has the same shape discipline as the gap
phase: cursor, running count and array length move together, the suffix
beyond the cursor and the examined trace are untouched. -/
theorem baRecordPhase_shift (v : BAVars) (st : BAState) (seg : TCL)
    (h1 : 1 ≤ st.tclLoop) (h2 : st.tclLoop ≤ st.g.arr.length) :
    ∃ k : ℕ,
      (baRecordPhase v st seg).tclLoop = st.tclLoop + k
      ∧ (baRecordPhase v st seg).recordCount = st.recordCount + k
      ∧ (baRecordPhase v st seg).g.arr.length = st.g.arr.length + k
      ∧ (baRecordPhase v st seg).g.arr.drop (baRecordPhase v st seg).tclLoop
          = st.g.arr.drop st.tclLoop
      ∧ (baRecordPhase v st seg).examined = st.examined := by
  have hlen : ∀ x : TCL,
      (st.g.arr.insertIdx (max (st.tclLoop - 1) 1) x).length = st.g.arr.length + 1 :=
    fun x => List.length_insertIdx _ _
      (max_le (Nat.le_trans (Nat.sub_le _ _) h2) (Nat.le_trans h1 h2))
  have hdrop : ∀ x : TCL,
      (st.g.arr.insertIdx (max (st.tclLoop - 1) 1) x).drop (st.tclLoop + 1)
        = st.g.arr.drop st.tclLoop :=
    fun x => drop_insertIdx_of_le x _ _ _ (max_le (Nat.sub_le _ _) h1)
  unfold baRecordPhase
  dsimp only
  by_cases hp : seg.isPaidMeal = true
  · rw [if_pos hp]
    exact ⟨0, rfl, rfl, rfl, rfl, rfl⟩
  · rw [if_neg hp]
    by_cases hu : seg.isUnpaidMeal = true
    · rw [if_neg (by simp [hu])]
      by_cases hsh : st.sinceLastMeal < v.before
      · rw [if_pos hsh]
        by_cases hmw : v.minimumsWorked = true
        · rw [if_pos hmw]
          by_cases hdur : (seg.timeOutTs - seg.timeInTs) / 3600 > v.maxBrk
          · rw [if_pos hdur]
            exact ⟨1, rfl, rfl, hlen _, hdrop _, rfl⟩
          · rw [if_neg hdur]
            exact ⟨1, rfl, rfl, hlen _, hdrop _, rfl⟩
        · rw [if_neg hmw]
          by_cases hdur : (seg.timeOutTs - seg.timeInTs) / 3600 > v.maxBrk
          · rw [if_pos hdur]
            exact ⟨0, rfl, rfl, rfl, rfl, rfl⟩
          · rw [if_neg hdur]
            exact ⟨0, rfl, rfl, rfl, rfl, rfl⟩
      · rw [if_neg hsh]
        by_cases hdur : (seg.timeOutTs - seg.timeInTs) / 3600 > v.maxBrk
        · rw [if_pos hdur]
          exact ⟨0, rfl, rfl, rfl, rfl, rfl⟩
        · rw [if_neg hdur]
          exact ⟨0, rfl, rfl, rfl, rfl, rfl⟩
    · rw [if_pos (by simp [hu])]
      exact ⟨0, rfl, rfl, rfl, rfl, rfl⟩

/-- The two phases composed: the combined shift of one loop iteration. -/
theorem baPhases_shift (v : BAVars) (stA : BAState) (seg : TCL)
    (h1 : 1 ≤ stA.tclLoop) (h2 : stA.tclLoop ≤ stA.g.arr.length) :
    ∃ k : ℕ,
      (baRecordPhase v (baGapPhase v stA seg) seg).tclLoop = stA.tclLoop + k
      ∧ (baRecordPhase v (baGapPhase v stA seg) seg).recordCount = stA.recordCount + k
      ∧ (baRecordPhase v (baGapPhase v stA seg) seg).g.arr.length
          = stA.g.arr.length + k
      ∧ (baRecordPhase v (baGapPhase v stA seg) seg).g.arr.drop
            (baRecordPhase v (baGapPhase v stA seg) seg).tclLoop
          = stA.g.arr.drop stA.tclLoop
      ∧ (baRecordPhase v (baGapPhase v stA seg) seg).examined = stA.examined := by
  obtain ⟨k1, g1, g2, g3, g4, g5⟩ := baGapPhase_shift v stA seg h1 h2
  obtain ⟨k2, r1, r2, r3, r4, r5⟩ := baRecordPhase_shift v (baGapPhase v stA seg) seg
    (by rw [g1]; exact Nat.le_trans h1 (Nat.le_add_right _ _))
    (by rw [g1, g3]; exact Nat.add_le_add_right h2 k1)
  refine ⟨k1 + k2, ?_, ?_, ?_, ?_, ?_⟩
  · rw [r1, g1, Nat.add_assoc]
  · rw [r2, g2, Nat.add_assoc]
  · rw [r3, g3, Nat.add_assoc]
  · rw [r4, g4]
  · rw [r5, g5]

/-- One main-loop iteration examines exactly the record at the cursor,
shifts cursor, count and array length together, and keeps the suffix beyond
the cursor. -/
theorem baStep_shift (v : BAVars) (st : BAState)
    (h1 : 1 ≤ st.tclLoop) (h2 : st.tclLoop ≤ st.g.arr.length) :
    ∃ (k : ℕ) (seg : TCL),
      st.g.arr.get? (st.tclLoop - 1) = some seg
      ∧ (baStep v st).examined = st.examined ++ [seg]
      ∧ (baStep v st).tclLoop = st.tclLoop + k
      ∧ (baStep v st).recordCount = st.recordCount + k
      ∧ (baStep v st).g.arr.length = st.g.arr.length + k
      ∧ (baStep v st).g.arr.drop ((baStep v st).tclLoop) = st.g.arr.drop st.tclLoop := by
  have hlt : st.tclLoop - 1 < st.g.arr.length := by omega
  have hget : st.g.arr.get? (st.tclLoop - 1)
      = some (st.g.arr.get ⟨st.tclLoop - 1, hlt⟩) := List.get?_eq_get hlt
  have hrun : baStep v st
      = { baRecordPhase v
            (baGapPhase v
              { st with
                  hrsMinimumCall := if st.callCount = 0 then v.minFirst else v.minNext
                  lastIgnoreMC := (st.g.arr.get ⟨st.tclLoop - 1, hlt⟩).ignoreMinimumCall
                  thisRecord := some (st.g.arr.get ⟨st.tclLoop - 1, hlt⟩)
                  examined := st.examined ++ [st.g.arr.get ⟨st.tclLoop - 1, hlt⟩] }
              (st.g.arr.get ⟨st.tclLoop - 1, hlt⟩))
            (st.g.arr.get ⟨st.tclLoop - 1, hlt⟩)
          with lastOutTs := some (st.g.arr.get ⟨st.tclLoop - 1, hlt⟩).timeOutTs } := by
    unfold baStep
    rw [hget]
  obtain ⟨k, p1, p2, p3, p4, p5⟩ := baPhases_shift v
    { st with
        hrsMinimumCall := if st.callCount = 0 then v.minFirst else v.minNext
        lastIgnoreMC := (st.g.arr.get ⟨st.tclLoop - 1, hlt⟩).ignoreMinimumCall
        thisRecord := some (st.g.arr.get ⟨st.tclLoop - 1, hlt⟩)
        examined := st.examined ++ [st.g.arr.get ⟨st.tclLoop - 1, hlt⟩] }
    (st.g.arr.get ⟨st.tclLoop - 1, hlt⟩) h1 h2
  refine ⟨k, st.g.arr.get ⟨st.tclLoop - 1, hlt⟩, hget, ?_, ?_, ?_, ?_, ?_⟩
  · rw [hrun]; exact p5
  · rw [hrun]; exact p1
  · rw [hrun]; exact p2
  · rw [hrun]; exact p3
  · rw [hrun]; exact p4

/-- Part 3 never touches the examined trace. -/
theorem baPartThree_examined (v : BAVars) (st : BAState) :
    (baPartThree v st).examined = st.examined := by
  unfold baPartThree
  by_cases hc : 0 < st.mealCounter ∧ st.sinceUnpaidMeal < v.after
  · rw [if_pos hc]
    cases st.hrsMinimumCall with
    | none => rfl
    | some mc =>
      dsimp only
      by_cases hgt : v.after - st.sinceUnpaidMeal > mc - st.sinceStartOfCall
      · rw [if_pos hgt]
        by_cases hig : st.lastIgnoreMC = true
        · rw [if_pos hig]
        · rw [if_neg hig]
          by_cases hmw : v.minimumsWorked = true
          · rw [if_pos hmw]
            rfl
          · rw [if_neg hmw]
            rfl
      · rw [if_neg hgt]
  · rw [if_neg hc]

/-- The main loop appends to the examined trace exactly the suffix of the
store beyond the cursor, provided the running count tracks the array length
and the fuel covers the remaining iterations. -/
theorem baLoopF_examined (v : BAVars) (A : List TCL) :
    ∀ (n : ℕ) (st : BAState),
      st.recordCount = st.g.arr.length →
      st.examined ++ st.g.arr.drop st.tclLoop = A →
      st.recordCount + 1 - st.tclLoop ≤ n →
      (baLoopF v n st).examined = A := by
  intro n
  induction n with
  | zero =>
    intro st hrc hex hm
    have hnil : st.g.arr.drop st.tclLoop = [] := List.drop_eq_nil_of_le (by omega)
    rw [show baLoopF v 0 st = st from rfl]
    rw [hnil, List.append_nil] at hex
    exact hex
  | succ n ih =>
    intro st hrc hex hm
    have hunf : baLoopF v (n + 1) st
        = if st.recordCount < st.tclLoop + 1
            then { st with tclLoop := st.tclLoop + 1 }
            else baLoopF v n (baStep v { st with tclLoop := st.tclLoop + 1 }) := rfl
    rw [hunf]
    by_cases hstop : st.recordCount < st.tclLoop + 1
    · rw [if_pos hstop]
      have hnil : st.g.arr.drop st.tclLoop = [] := List.drop_eq_nil_of_le (by omega)
      rw [hnil, List.append_nil] at hex
      exact hex
    · rw [if_neg hstop]
      push_neg at hstop
      obtain ⟨k, seg, hget, e1, e2, e3, e4, e5⟩ :=
        baStep_shift v { st with tclLoop := st.tclLoop + 1 }
          (Nat.le_add_left 1 st.tclLoop)
          (show st.tclLoop + 1 ≤ st.g.arr.length by omega)
      have hget2 : st.g.arr.get? st.tclLoop = some seg := hget
      have hlt2 : st.tclLoop < st.g.arr.length := by omega
      have helem : st.g.arr[st.tclLoop] = seg := by
        rw [List.get?_eq_get hlt2] at hget2
        exact Option.some.inj hget2
      have hcons : st.g.arr.drop st.tclLoop
          = seg :: st.g.arr.drop (st.tclLoop + 1) := by
        rw [List.drop_eq_getElem_cons hlt2, helem]
      refine ih (baStep v { st with tclLoop := st.tclLoop + 1 }) ?_ ?_ ?_
      · rw [e3, e4]
        show st.recordCount + k = st.g.arr.length + k
        omega
      · rw [e1, e5]
        show (st.examined ++ [seg]) ++ st.g.arr.drop (st.tclLoop + 1) = A
        rw [List.append_assoc, List.singleton_append, ← hcons]
        exact hex
      · rw [e3, e2]
        show st.recordCount + k + 1 - (st.tclLoop + 1 + k) ≤ n
        omega

/-- C3: with the running count covering the store at entry, a full run of
the Before/after-unpaid-meal adjuster examines each segment present when its
main loop starts exactly once and in order — the examined trace of the run
equals the starting bill/pay array — because every worked-padding insertion
advances the loop cursor and the running record count together past the
inserted segment (second conjunct), so no original segment is skipped or
reprocessed. -/
theorem c3_main_loop_examines_each_segment_once (v : BAVars) (isBillMode : Bool)
    (historyHours : ℚ) (g : ModeVars)
    (hmw : v.minimumsWorked = true) (hc : g.count = g.arr.length) :
    (baRun v isBillMode historyHours g).examined = g.arr
      ∧ ∀ (st : BAState) (hrs : ℚ) (tag : BATag),
          (baCreateWorked st hrs tag).tclLoop = st.tclLoop + 1
            ∧ (baCreateWorked st hrs tag).recordCount = st.recordCount + 1 := by
  refine ⟨?_, fun st hrs tag => ⟨rfl, rfl⟩⟩
  unfold baRun
  rw [baPartThree_examined]
  refine baLoopF_examined v g.arr (g.count + 1) (baInit isBillMode historyHours g)
    hc ?_ ?_
  · show ([] : List TCL) ++ g.arr.drop 0 = g.arr
    rfl
  · show g.count + 1 - 0 ≤ g.count + 1
    omega

/-- C3 witness: on the concrete two-segment after-meal scenario the run's
examined trace is exactly the starting array. -/
theorem c3_main_loop_examines_each_segment_once_witness :
    (baRun (c4V true) true 0 c4G).examined = c4G.arr :=
  (c3_main_loop_examines_each_segment_once (c4V true) true 0 c4G rfl rfl).1
